import Mathlib

/-!
Shallow embedding of the spacebot agent-link graph and conversation
persistence layer (`src/links/types.rs`, `src/conversation/history.rs`),
together with theorems settling the specification claims.

Modelling conventions:
* Rust `String` becomes Lean `String`.  Rust compares strings byte-wise
  (UTF-8); Lean orders strings lexicographically on code points, and
  UTF-8 byte order agrees with code-point order, so `≤` coincides.
* `chrono::DateTime<Utc>` timestamps become `Nat` (`created_at`).
* The SQLite database is a record of row lists plus a `fail` flag that
  models the store returning an error on the next statement.
* SQL `ORDER BY key` is modelled as a stable insertion sort on the key;
  SQLite leaves the relative order of equal keys unspecified, the model
  fixes it to input order.
* SQL `LIMIT n` is modelled for non-negative `n` as `List.take n`.
* `metadata` is stored in Rust as a JSON string and parsed with serde on
  read; the model keeps it at the parsed level, as an association list of
  keys to JSON values (`MetaValue`).
* `uuid::Uuid::new_v4()` and the insertion timestamp are external inputs
  of the write operations and are passed as explicit arguments.
-/

/-! ## Character-level string helpers

`String.toLower` from core does not reduce well in the kernel, so the
model uses explicit list-level versions of the Rust `str` operations
`to_lowercase`, `starts_with` and `contains`. -/

/-- Rust `str::to_lowercase`, per character. -/
def strToLower (s : String) : String :=
  ⟨s.data.map Char.toLower⟩

/-- `listLeads sub l` holds when `sub` is an initial segment of `l`
(Rust `str::starts_with` at the character-list level). -/
def listLeads : List Char → List Char → Bool
  | [], _ => true
  | _ :: _, [] => false
  | a :: as_, b :: bs => a == b && listLeads as_ bs

/-- Rust `str::starts_with`. -/
def strStartsWith (s sub : String) : Bool :=
  listLeads sub.data s.data

/-- `listHasSub sub l` holds when `sub` occurs contiguously inside `l`. -/
def listHasSub (sub : List Char) : List Char → Bool
  | [] => sub.isEmpty
  | b :: bs => listLeads sub (b :: bs) || listHasSub sub bs

/-- Rust `str::contains` (substring occurrence). -/
def strContainsSub (s sub : String) : Bool :=
  listHasSub sub.data s.data

deriving instance DecidableEq for Except

/-! ## `src/links/types.rs` -/

/-- Direction policy for an agent link. -/
inductive LinkDirection where
  /-- from_agent can message to_agent, but not vice versa. -/
  | OneWay
  /-- Both agents can message each other through this link. -/
  | TwoWay
deriving DecidableEq, Repr

/-- `LinkDirection::as_str`. -/
def LinkDirection.as_str : LinkDirection → String
  | .OneWay => "one_way"
  | .TwoWay => "two_way"

/-- `impl FromStr for LinkDirection` (error text kept without the quote
characters around the offending value). -/
def LinkDirection.from_str (s : String) : Except String LinkDirection :=
  if s = "one_way" then .ok .OneWay
  else if s = "two_way" then .ok .TwoWay
  else .error ("invalid link direction: " ++ s ++ ", expected one_way or two_way")

/-- Relationship semantics for an agent link. -/
inductive LinkRelationship where
  /-- Equal peers — neither agent has authority over the other. -/
  | Peer
  /-- from_agent is superior to to_agent. -/
  | Superior
  /-- from_agent is subordinate to to_agent. -/
  | Subordinate
deriving DecidableEq, Repr

/-- `LinkRelationship::as_str`. -/
def LinkRelationship.as_str : LinkRelationship → String
  | .Peer => "peer"
  | .Superior => "superior"
  | .Subordinate => "subordinate"

/-- `LinkRelationship::inverse`. -/
def LinkRelationship.inverse : LinkRelationship → LinkRelationship
  | .Peer => .Peer
  | .Superior => .Subordinate
  | .Subordinate => .Superior

/-- `impl FromStr for LinkRelationship`. -/
def LinkRelationship.from_str (s : String) : Except String LinkRelationship :=
  if s = "peer" then .ok .Peer
  else if s = "superior" then .ok .Superior
  else if s = "subordinate" then .ok .Subordinate
  else .error
    ("invalid link relationship: " ++ s ++ ", expected peer, superior, or subordinate")

/-- A raw link definition from configuration (`crate::config::LinkDef`).
The Rust fields are `from` and `to`; `from` is reserved in Lean, so the
model names them `from_agent` / `to_agent`. -/
structure LinkDef where
  from_agent : String
  to_agent : String
  direction : String
  relationship : String
deriving DecidableEq, Repr

/-- A directed edge in the agent communication graph. -/
structure AgentLink where
  from_agent_id : String
  to_agent_id : String
  direction : LinkDirection
  relationship : LinkRelationship
deriving DecidableEq, Repr

/-- Parsing of one config definition, i.e. the body of the closure inside
`AgentLink::from_config`: direction first, then relationship, each error
decorated with the endpoints. -/
def linkFromDef (d : LinkDef) : Except String AgentLink :=
  match LinkDirection.from_str d.direction with
  | .error e => .error (e ++ " (link " ++ d.from_agent ++ " → " ++ d.to_agent ++ ")")
  | .ok dir =>
    match LinkRelationship.from_str d.relationship with
    | .error e => .error (e ++ " (link " ++ d.from_agent ++ " → " ++ d.to_agent ++ ")")
    | .ok rel => .ok ⟨d.from_agent, d.to_agent, dir, rel⟩

/-- `AgentLink::from_config`: `defs.iter().map(..).collect::<Result<Vec<_>>>()`,
which stops at the first failing definition and otherwise keeps order. -/
def AgentLink.from_config : List LinkDef → Except String (List AgentLink)
  | [] => .ok []
  | d :: rest =>
    match linkFromDef d with
    | .error e => .error e
    | .ok l =>
      match AgentLink.from_config rest with
      | .error e => .error e
      | .ok ls => .ok (l :: ls)

/-- `AgentLink::channel_id`: sort the endpoint ids, then
`format!("link:{a}:{b}")`. -/
def AgentLink.channel_id (l : AgentLink) : String :=
  let p := if l.from_agent_id ≤ l.to_agent_id
    then (l.from_agent_id, l.to_agent_id)
    else (l.to_agent_id, l.from_agent_id)
  "link:" ++ p.1 ++ ":" ++ p.2

/-- A raw definition is valid when both its string fields parse. -/
def LinkDef.valid (d : LinkDef) : Prop :=
  (LinkDirection.from_str d.direction).isOk = true ∧
  (LinkRelationship.from_str d.relationship).isOk = true

instance (d : LinkDef) : Decidable d.valid := by
  unfold LinkDef.valid; infer_instance

/-! ## `src/conversation/history.rs` -/

/-- A JSON value appearing in message metadata
(`serde_json::Value`, abstracted to what the code inspects). -/
inductive MetaValue where
  /-- A JSON string. -/
  | str (s : String)
  /-- Any non-string JSON value. -/
  | other
deriving DecidableEq, Repr

/-- `serde_json::Value::as_str`. -/
def MetaValue.as_str : MetaValue → Option String
  | .str s => some s
  | .other => none

/-- A persisted conversation message (`conversation_messages` row). -/
structure ConversationMessage where
  id : String
  channel_id : String
  role : String
  sender_name : Option String
  sender_id : Option String
  content : String
  metadata : Option (List (String × MetaValue))
  created_at : Nat
deriving DecidableEq, Repr

/-- A stored compaction summary (`compaction_summaries` row). -/
structure CompactionSummary where
  id : String
  channel_id : String
  summary : String
  turns_covered : Nat
  created_at : Nat
deriving DecidableEq, Repr

/-- An archived transcript (`conversation_archives` row). -/
structure ConversationArchive where
  id : String
  channel_id : String
  transcript : String
  created_at : Nat
deriving DecidableEq, Repr

/-- A known channel with its display name and last activity. -/
structure ChannelInfo where
  channel_id : String
  channel_name : Option String
  last_activity : Nat
  message_count : Nat
deriving DecidableEq, Repr

/-- The SQLite store a `ConversationLogger` talks to: the three tables,
plus a flag modelling the store failing the next statement. -/
structure ConversationStore where
  messages : List ConversationMessage
  summaries : List CompactionSummary
  archives : List ConversationArchive
  fail : Option String
deriving DecidableEq, Repr

/-- `ORDER BY created_at DESC` for messages (newest first, stable). -/
def msgsByNewest (l : List ConversationMessage) : List ConversationMessage :=
  l.insertionSort fun a b => b.created_at ≤ a.created_at

/-- `ConversationLogger::log_user_message`: spawn a task that runs the
INSERT; on error the failure is logged and dropped.  The caller gets `()`
immediately; the second component is the store state after the detached
task ran once.  `id` models the generated UUID and `now` the row's
`created_at` default. -/
def log_user_message (db : ConversationStore) (id : String) (now : Nat)
    (channel_id sender_name sender_id content : String)
    (metadata : List (String × MetaValue)) : Unit × ConversationStore :=
  let attempt : Except String ConversationStore :=
    match db.fail with
    | some e => .error e
    | none => .ok { db with messages := db.messages ++
        [⟨id, channel_id, "user", some sender_name, some sender_id, content,
          some metadata, now⟩] }
  ⟨(), match attempt with
    | .ok db2 => db2
    | .error _ => db⟩

/-- `ConversationLogger::log_bot_message` (role `assistant`, no sender,
no metadata), same fire-and-forget shape. -/
def log_bot_message (db : ConversationStore) (id : String) (now : Nat)
    (channel_id content : String) : Unit × ConversationStore :=
  let attempt : Except String ConversationStore :=
    match db.fail with
    | some e => .error e
    | none => .ok { db with messages := db.messages ++
        [⟨id, channel_id, "assistant", none, none, content, none, now⟩] }
  ⟨(), match attempt with
    | .ok db2 => db2
    | .error _ => db⟩

/-- `ConversationLogger::save_compaction_summary`, fire-and-forget. -/
def save_compaction_summary (db : ConversationStore) (id : String) (now : Nat)
    (channel_id summary : String) (turns_covered : Nat) :
    Unit × ConversationStore :=
  let attempt : Except String ConversationStore :=
    match db.fail with
    | some e => .error e
    | none => .ok { db with summaries := db.summaries ++
        [⟨id, channel_id, summary, turns_covered, now⟩] }
  ⟨(), match attempt with
    | .ok db2 => db2
    | .error _ => db⟩

/-- `ConversationLogger::archive_transcript`, fire-and-forget. -/
def archive_transcript (db : ConversationStore) (id : String) (now : Nat)
    (channel_id transcript_json : String) : Unit × ConversationStore :=
  let attempt : Except String ConversationStore :=
    match db.fail with
    | some e => .error e
    | none => .ok { db with archives := db.archives ++
        [⟨id, channel_id, transcript_json, now⟩] }
  ⟨(), match attempt with
    | .ok db2 => db2
    | .error _ => db⟩

/-- `ConversationLogger::load_recent`: rows of the channel, newest first,
`LIMIT limit`, then reversed to chronological order. -/
def load_recent (db : ConversationStore) (channel_id : String) (limit : Nat) :
    Except String (List ConversationMessage) :=
  match db.fail with
  | some e => .error e
  | none =>
    let rows := (msgsByNewest
      (db.messages.filter fun m => m.channel_id == channel_id)).take limit
    .ok rows.reverse

/-- `ConversationLogger::load_channel_transcript`: same query and
post-processing as `load_recent`, for an arbitrary channel. -/
def load_channel_transcript (db : ConversationStore) (channel_id : String)
    (limit : Nat) : Except String (List ConversationMessage) :=
  match db.fail with
  | some e => .error e
  | none =>
    let rows := (msgsByNewest
      (db.messages.filter fun m => m.channel_id == channel_id)).take limit
    .ok rows.reverse

/-- `ConversationLogger::load_compaction_summaries`:
all rows of the channel, `ORDER BY created_at ASC`. -/
def load_compaction_summaries (db : ConversationStore) (channel_id : String) :
    Except String (List CompactionSummary) :=
  match db.fail with
  | some e => .error e
  | none =>
    .ok ((db.summaries.filter fun s => s.channel_id == channel_id).insertionSort
      fun a b => a.created_at ≤ b.created_at)

/-- `ConversationLogger::resolve_channel_name`: metadata of the newest
metadata-bearing message of the channel, field `discord_channel_name`,
kept when it is a JSON string.  Store errors are swallowed to `none`
(the Rust body ends every fallible step with `.ok()?`). -/
def resolve_channel_name (msgs : List ConversationMessage)
    (channel_id : String) : Option String :=
  match msgsByNewest
      (msgs.filter fun m => m.channel_id == channel_id && m.metadata.isSome) with
  | [] => none
  | m :: _ =>
    m.metadata.bind fun md =>
      (md.lookup "discord_channel_name").bind MetaValue.as_str

/-- `ConversationLogger::list_channels`: group messages by channel,
aggregate last activity and count, order by last activity descending,
and resolve a display name per channel. -/
def list_channels (db : ConversationStore) :
    Except String (List ChannelInfo) :=
  match db.fail with
  | some e => .error e
  | none =>
    let ids := (db.messages.map fun m => m.channel_id).dedup
    let infos := ids.map fun cid =>
      let inChannel := db.messages.filter fun m => m.channel_id == cid
      ChannelInfo.mk cid (resolve_channel_name db.messages cid)
        ((inChannel.map fun m => m.created_at).foldr max 0) inChannel.length
    .ok (infos.insertionSort fun a b => b.last_activity ≤ a.last_activity)

/-- The body of `ConversationLogger::find_channel_by_name` after the
channel list is fetched: four sequential `iter().find(..)` tiers with
early return. -/
def findInChannels (channels : List ChannelInfo) (name : String) :
    Option String :=
  let name_lower := strToLower name
  match channels.find? fun c =>
      c.channel_name.any fun n => strToLower n == name_lower with
  | some c => some c.channel_id
  | none =>
  match channels.find? fun c =>
      c.channel_name.any fun n => strStartsWith (strToLower n) name_lower with
  | some c => some c.channel_id
  | none =>
  match channels.find? fun c =>
      c.channel_name.any fun n => strContainsSub (strToLower n) name_lower with
  | some c => some c.channel_id
  | none =>
  match channels.find? fun c => strContainsSub c.channel_id name_lower with
  | some c => some c.channel_id
  | none => none

/-- `ConversationLogger::find_channel_by_name`. -/
def find_channel_by_name (db : ConversationStore) (name : String) :
    Except String (Option String) :=
  match list_channels db with
  | .error e => .error e
  | .ok channels => .ok (findInChannels channels name)

/-! ## The cascade of `find_channel_by_name`, as the specification words it -/

/-- Tier 1: exact (case-insensitive) match of the resolved display name. -/
def tierExact (q : String) (c : ChannelInfo) : Bool :=
  c.channel_name.any fun n => strToLower n == strToLower q

/-- Tier 2: display name starts with the query (case-insensitive). -/
def tierStarts (q : String) (c : ChannelInfo) : Bool :=
  c.channel_name.any fun n => strStartsWith (strToLower n) (strToLower q)

/-- Tier 3: display name contains the query (case-insensitive). -/
def tierWithin (q : String) (c : ChannelInfo) : Bool :=
  c.channel_name.any fun n => strContainsSub (strToLower n) (strToLower q)

/-- Tier 4: the raw channel identifier contains the lowercased query.
The identifier itself is not lowercased. -/
def tierIdWithin (q : String) (c : ChannelInfo) : Bool :=
  strContainsSub c.channel_id (strToLower q)

/-- The cascade as described: each tier is consulted only when every
earlier tier yields nothing, the first match wins. -/
def cascadeSpec (channels : List ChannelInfo) (q : String) : Option String :=
  ((channels.find? (tierExact q)).orElse fun _ =>
    (channels.find? (tierStarts q)).orElse fun _ =>
      (channels.find? (tierWithin q)).orElse fun _ =>
        channels.find? (tierIdWithin q)).map fun c => c.channel_id

/-! ## Concrete example stores used by counterexamples and witnesses -/

/-- Example store whose only channel has an identifier with an
upper-case letter and no resolved display name. -/
def cexStore5 : ConversationStore :=
  ⟨[⟨"m", "link:agentA:agentB", "user", none, none, "x", none, 3⟩], [], [], none⟩

/-- Example store with two channels: the more recently active one is
named `general`, the older one carries the empty string as its name. -/
def cexStore10 : ConversationStore :=
  ⟨[⟨"m1", "c1", "user", none, none, "x",
      some [("discord_channel_name", .str "general")], 2⟩,
    ⟨"m2", "c2", "user", none, none, "y",
      some [("discord_channel_name", .str "")], 1⟩], [], [], none⟩

/-- Example store with two messages in one channel sharing a timestamp. -/
def cexStore4 : ConversationStore :=
  ⟨[⟨"a", "c", "user", none, none, "x", none, 5⟩,
    ⟨"b", "c", "user", none, none, "y", none, 5⟩], [], [], none⟩

/-- Example store for the `load_recent` witness (distinct timestamps). -/
def wStore4 : ConversationStore :=
  ⟨[⟨"a", "c", "user", none, none, "x", none, 1⟩,
    ⟨"b", "c", "user", none, none, "y", none, 2⟩], [], [], none⟩

/-- Example store whose next statement fails. -/
def failStore : ConversationStore := ⟨[], [], [], some "disk full"⟩

/-- Example store with two summaries of one channel, newest stored first. -/
def wStore8 : ConversationStore :=
  ⟨[], [⟨"s2", "c", "later", 3, 7⟩, ⟨"s1", "c", "earlier", 2, 4⟩], [], none⟩

instance : IsTotal ConversationMessage (fun a b => b.created_at ≤ a.created_at) :=
  ⟨fun a b => le_total b.created_at a.created_at⟩

instance : IsTrans ConversationMessage (fun a b => b.created_at ≤ a.created_at) :=
  ⟨fun _ _ _ hab hbc => le_trans hbc hab⟩

instance : IsTotal CompactionSummary (fun a b => a.created_at ≤ b.created_at) :=
  ⟨fun a b => le_total a.created_at b.created_at⟩

instance : IsTrans CompactionSummary (fun a b => a.created_at ≤ b.created_at) :=
  ⟨fun _ _ _ hab hbc => le_trans hab hbc⟩

/-! ## Helper lemmas -/

lemma linkFromDef_error_of_not_valid (d : LinkDef) (h : ¬ d.valid) :
    ∃ e, linkFromDef d = .error e := by
  unfold LinkDef.valid at h
  unfold linkFromDef
  rcases h1 : LinkDirection.from_str d.direction with e | dir
  · exact ⟨_, rfl⟩
  · rcases h2 : LinkRelationship.from_str d.relationship with e | rel
    · exact ⟨_, rfl⟩
    · exact absurd ⟨by simp [h1, Except.isOk, Except.toBool],
        by simp [h2, Except.isOk, Except.toBool]⟩ h

lemma linkFromDef_ok_of_valid (d : LinkDef) (h : d.valid) :
    linkFromDef d = .ok ⟨d.from_agent, d.to_agent,
      (LinkDirection.from_str d.direction).toOption.getD .OneWay,
      (LinkRelationship.from_str d.relationship).toOption.getD .Peer⟩ := by
  obtain ⟨h1, h2⟩ := h
  unfold linkFromDef
  rcases e1 : LinkDirection.from_str d.direction with e | dir
  · rw [e1] at h1; simp [Except.isOk, Except.toBool] at h1
  · rcases e2 : LinkRelationship.from_str d.relationship with e | rel
    · rw [e2] at h2; simp [Except.isOk, Except.toBool] at h2
    · simp [Except.toOption]

lemma optionOrElse_eq_none {α : Type} (o : Option α) (f : Unit → Option α) :
    o.orElse f = none ↔ o = none ∧ f () = none := by
  cases o <;> simp [Option.orElse]

lemma findInChannels_eq_cascade (channels : List ChannelInfo) (q : String) :
    findInChannels channels q = cascadeSpec channels q := by
  unfold findInChannels cascadeSpec tierExact tierStarts tierWithin tierIdWithin
  rcases h1 : channels.find? fun c =>
      c.channel_name.any fun n => strToLower n == strToLower q with _ | c1
  · rcases h2 : channels.find? fun c =>
        c.channel_name.any fun n => strStartsWith (strToLower n) (strToLower q) with _ | c2
    · rcases h3 : channels.find? fun c =>
          c.channel_name.any fun n => strContainsSub (strToLower n) (strToLower q) with _ | c3
      · rcases h4 : channels.find? fun c =>
            strContainsSub c.channel_id (strToLower q) with _ | c4 <;>
          simp [h1, h2, h3, h4, Option.orElse]
      · simp [h1, h2, h3, Option.orElse]
    · simp [h1, h2, Option.orElse]
  · simp [h1, Option.orElse]

lemma strToLower_empty : strToLower "" = "" := rfl

lemma strStartsWith_empty (s : String) : strStartsWith s "" = true := rfl

lemma tierStarts_empty (c : ChannelInfo) :
    tierStarts "" c = (c.channel_name).isSome := by
  cases hc : c.channel_name <;>
    simp [tierStarts, hc, Option.any, strToLower_empty, strStartsWith_empty]

/-! ## Claim theorems -/

/-- Claim C1, counterexample: the current parser rejects the string
`hierarchical`, and the legacy strings `superior` and `subordinate` parse
to the two distinct kinds `Superior` and `Subordinate` of the three-valued
schema, not to a common `Hierarchical` kind. -/
theorem legacy_relationship_strings_cex :
    (LinkRelationship.from_str "hierarchical").isOk = false ∧
    LinkRelationship.from_str "superior" = .ok .Superior ∧
    LinkRelationship.from_str "subordinate" = .ok .Subordinate ∧
    LinkRelationship.Superior ≠ LinkRelationship.Subordinate := by
  decide

/-- Claim C1, amended: the relationship schema in the code is the
three-valued `{Peer, Superior, Subordinate}`; `superior` parses to
`Superior` and `subordinate` to `Subordinate`, exchanged by `inverse`,
while `hierarchical` is not an accepted string. -/
theorem legacy_relationship_strings_three_valued :
    LinkRelationship.from_str "peer" = .ok .Peer ∧
    LinkRelationship.from_str "superior" = .ok .Superior ∧
    LinkRelationship.from_str "subordinate" = .ok .Subordinate ∧
    (LinkRelationship.from_str "hierarchical").isOk = false ∧
    LinkRelationship.Superior.inverse = .Subordinate ∧
    LinkRelationship.Subordinate.inverse = .Superior := by
  decide

/-- Claim C2: `channel_id` is computed from the lexicographically sorted
pair of endpoint identifiers and is independent of the edge direction and
relationship fields, so the edge A→B and the edge B→A always yield the
same channel identity. -/
theorem channel_id_symmetric (a b : String) (d₁ d₂ : LinkDirection)
    (r₁ r₂ : LinkRelationship) :
    AgentLink.channel_id ⟨a, b, d₁, r₁⟩ = AgentLink.channel_id ⟨b, a, d₂, r₂⟩ := by
  unfold AgentLink.channel_id
  by_cases h1 : a ≤ b
  · by_cases h2 : b ≤ a
    · have : a = b := le_antisymm h1 h2
      subst this
      simp
    · simp [h1, h2]
  · have h2 : b ≤ a := le_of_not_le h1
    simp [h1, h2]

/-- Claim C3: batch validation is all-or-nothing.  If any definition in
the batch has an invalid direction or relationship string, `from_config`
returns an error and no edge list at all; if every definition is valid it
returns exactly one `AgentLink` per definition, in order, with the parsed
fields. -/
theorem from_config_all_or_nothing (defs : List LinkDef) :
    ((∃ d ∈ defs, ¬ d.valid) → ∃ e, AgentLink.from_config defs = .error e) ∧
    ((∀ d ∈ defs, d.valid) → ∃ ls, AgentLink.from_config defs = .ok ls ∧
      List.Forall₂ (fun (d : LinkDef) (l : AgentLink) =>
        l.from_agent_id = d.from_agent ∧ l.to_agent_id = d.to_agent ∧
        LinkDirection.from_str d.direction = .ok l.direction ∧
        LinkRelationship.from_str d.relationship = .ok l.relationship) defs ls) := by
  induction defs with
  | nil =>
    refine ⟨fun h => ?_, fun _ => ⟨[], rfl, List.Forall₂.nil⟩⟩
    obtain ⟨d, hd, _⟩ := h
    exact absurd hd (List.not_mem_nil d)
  | cons d rest ih =>
    constructor
    · intro h
      by_cases hd : d.valid
      · have hrest : ∃ d ∈ rest, ¬ d.valid := by
          obtain ⟨d', hd', hnv⟩ := h
          rcases List.mem_cons.mp hd' with rfl | hmem
          · exact absurd hd hnv
          · exact ⟨d', hmem, hnv⟩
        obtain ⟨e, he⟩ := ih.1 hrest
        refine ⟨e, ?_⟩
        unfold AgentLink.from_config
        rw [linkFromDef_ok_of_valid d hd, he]
      · obtain ⟨e, he⟩ := linkFromDef_error_of_not_valid d hd
        refine ⟨e, ?_⟩
        unfold AgentLink.from_config
        rw [he]
    · intro h
      have hd : d.valid := h d (List.mem_cons_self d rest)
      obtain ⟨ls, hls, hcorr⟩ := ih.2 (fun d' hd' => h d' (List.mem_cons_of_mem d hd'))
      refine ⟨(⟨d.from_agent, d.to_agent,
          (LinkDirection.from_str d.direction).toOption.getD .OneWay,
          (LinkRelationship.from_str d.relationship).toOption.getD .Peer⟩ : AgentLink)
            :: ls, ?_, ?_⟩
      · unfold AgentLink.from_config
        rw [linkFromDef_ok_of_valid d hd, hls]
      · refine List.Forall₂.cons ⟨rfl, rfl, ?_, ?_⟩ hcorr
        · obtain ⟨h1, _⟩ := hd
          rcases e1 : LinkDirection.from_str d.direction with e | dir
          · rw [e1] at h1; simp [Except.isOk, Except.toBool] at h1
          · simp [e1, Except.toOption]
        · obtain ⟨_, h2⟩ := hd
          rcases e2 : LinkRelationship.from_str d.relationship with e | rel
          · rw [e2] at h2; simp [Except.isOk, Except.toBool] at h2
          · simp [e2, Except.toOption]

/-- Claim C3, witness: a batch with one bad direction string is rejected
as a whole, and an all-valid batch yields one edge per definition. -/
theorem from_config_all_or_nothing_witness :
    (∃ e, AgentLink.from_config
        [⟨"a", "b", "one_way", "peer"⟩, ⟨"b", "c", "sideways", "peer"⟩] = .error e) ∧
    (∃ ls, AgentLink.from_config
        [⟨"a", "b", "one_way", "peer"⟩, ⟨"b", "c", "two_way", "superior"⟩] = .ok ls ∧
      List.Forall₂ (fun (d : LinkDef) (l : AgentLink) =>
        l.from_agent_id = d.from_agent ∧ l.to_agent_id = d.to_agent ∧
        LinkDirection.from_str d.direction = .ok l.direction ∧
        LinkRelationship.from_str d.relationship = .ok l.relationship)
        [⟨"a", "b", "one_way", "peer"⟩, ⟨"b", "c", "two_way", "superior"⟩] ls) :=
  ⟨(from_config_all_or_nothing _).1 ⟨⟨"b", "c", "sideways", "peer"⟩, by decide, by decide⟩,
   (from_config_all_or_nothing _).2 (by decide)⟩

/-- Claim C4, counterexample: with two messages of one channel sharing a
`created_at` value, `load_recent` returns them in an order that is not
strictly ascending, so the claimed strict order fails. -/
theorem load_recent_strict_cex :
    load_recent cexStore4 "c" 2 =
      .ok [⟨"b", "c", "user", none, none, "y", none, 5⟩,
           ⟨"a", "c", "user", none, none, "x", none, 5⟩] ∧
    ¬ List.Sorted (fun a b => a.created_at < b.created_at)
      [(⟨"b", "c", "user", none, none, "y", none, 5⟩ : ConversationMessage),
       ⟨"a", "c", "user", none, none, "x", none, 5⟩] := by
  refine ⟨by decide, fun h => ?_⟩
  have := List.rel_of_sorted_cons h _ (List.mem_singleton.mpr rfl)
  exact absurd this (by decide)

/-- Claim C4, amended: `load_recent` returns at most `limit` messages,
all of the requested channel, in non-decreasing `created_at` order; the
order is strictly ascending whenever the returned timestamps are pairwise
distinct. -/
theorem load_recent_props (db : ConversationStore) (ch : String) (limit : Nat)
    (ms : List ConversationMessage) (h : load_recent db ch limit = .ok ms) :
    ms.length ≤ limit ∧ (∀ m ∈ ms, m.channel_id = ch) ∧
    List.Sorted (fun a b => a.created_at ≤ b.created_at) ms ∧
    (List.Pairwise (fun a b => a.created_at ≠ b.created_at) ms →
      List.Sorted (fun a b => a.created_at < b.created_at) ms) := by
  unfold load_recent msgsByNewest at h
  rcases hf : db.fail with _ | e
  · rw [hf] at h
    simp only [Except.ok.injEq] at h
    subst h
    have hs := List.sorted_insertionSort
      (fun a b : ConversationMessage => b.created_at ≤ a.created_at)
      (db.messages.filter fun m => m.channel_id == ch)
    have ht : List.Sorted (fun a b : ConversationMessage => b.created_at ≤ a.created_at)
        ((List.insertionSort (fun a b => b.created_at ≤ a.created_at)
          (db.messages.filter fun m => m.channel_id == ch)).take limit) :=
      List.Pairwise.sublist (List.take_sublist _ _) hs
    have hle := List.pairwise_reverse.mpr ht
    refine ⟨?_, ?_, hle, ?_⟩
    · rw [List.length_reverse, List.length_take]
      exact min_le_left _ _
    · intro m hm
      rw [List.mem_reverse] at hm
      have hm2 := List.take_subset _ _ hm
      have hm3 := (List.perm_insertionSort
        (fun a b : ConversationMessage => b.created_at ≤ a.created_at) _).subset hm2
      exact (Bool.of_decide_true (List.mem_filter.mp hm3).2 : _ = _)
    · intro hne
      exact List.Pairwise.imp (fun hab => lt_of_le_of_ne hab.1 hab.2) (hle.and hne)
  · rw [hf] at h
    exact absurd h (by simp)

/-- Claim C4, witness: the amended properties hold at a concrete store
with two messages of distinct timestamps and limit five. -/
theorem load_recent_props_witness :
    ([⟨"a", "c", "user", none, none, "x", none, 1⟩,
      ⟨"b", "c", "user", none, none, "y", none, 2⟩] :
        List ConversationMessage).length ≤ 5 ∧
    (∀ m ∈ ([⟨"a", "c", "user", none, none, "x", none, 1⟩,
      ⟨"b", "c", "user", none, none, "y", none, 2⟩] :
        List ConversationMessage), m.channel_id = "c") ∧
    List.Sorted (fun a b => a.created_at ≤ b.created_at)
      ([⟨"a", "c", "user", none, none, "x", none, 1⟩,
        ⟨"b", "c", "user", none, none, "y", none, 2⟩] :
          List ConversationMessage) ∧
    (List.Pairwise (fun a b => a.created_at ≠ b.created_at)
        ([⟨"a", "c", "user", none, none, "x", none, 1⟩,
          ⟨"b", "c", "user", none, none, "y", none, 2⟩] :
            List ConversationMessage) →
      List.Sorted (fun a b => a.created_at < b.created_at)
        ([⟨"a", "c", "user", none, none, "x", none, 1⟩,
          ⟨"b", "c", "user", none, none, "y", none, 2⟩] :
            List ConversationMessage)) :=
  load_recent_props wStore4 "c" 5
    [⟨"a", "c", "user", none, none, "x", none, 1⟩,
     ⟨"b", "c", "user", none, none, "y", none, 2⟩] (by decide)

/-- Claim C5, counterexample: the fourth tier compares the lowercased
query against the raw channel identifier, so a channel whose identifier
contains an upper-case letter is missed by the query `agenta` although a
case-insensitive containment match exists. -/
theorem find_channel_tier4_case_cex :
    find_channel_by_name cexStore5 "agenta" = .ok none ∧
    strContainsSub (strToLower "link:agentA:agentB") (strToLower "agenta") = true := by
  constructor
  · decide
  · decide

/-- Claim C5, amended: `find_channel_by_name` is the four-tier cascade
with first match winning, where tiers one to three are case-insensitive
matches of the resolved display name (exact, starts-with, contains) and
tier four checks that the raw, un-lowercased channel identifier contains
the lowercased query; a miss is the value `none`, not an error. -/
theorem find_channel_cascade (db : ConversationStore)
    (channels : List ChannelInfo) (q : String)
    (hch : list_channels db = .ok channels) :
    find_channel_by_name db q = .ok (cascadeSpec channels q) ∧
    (cascadeSpec channels q = none ↔ ∀ c ∈ channels,
      tierExact q c = false ∧ tierStarts q c = false ∧
      tierWithin q c = false ∧ tierIdWithin q c = false) := by
  constructor
  · unfold find_channel_by_name
    rw [hch]
    exact congrArg Except.ok (findInChannels_eq_cascade channels q)
  · unfold cascadeSpec
    simp only [Option.map_eq_none', optionOrElse_eq_none, List.find?_eq_none,
      Bool.not_eq_true]
    constructor
    · intro h c hc
      exact ⟨h.1 c hc, h.2.1 c hc, h.2.2.1 c hc, h.2.2.2 c hc⟩
    · intro h
      exact ⟨fun c hc => (h c hc).1, fun c hc => (h c hc).2.1,
        fun c hc => (h c hc).2.2.1, fun c hc => (h c hc).2.2.2⟩

/-- Claim C5, witness: the cascade equivalence evaluated at a concrete
store and the query `agent`, which tier four resolves. -/
theorem find_channel_cascade_witness :
    find_channel_by_name cexStore5 "agent" =
      .ok (cascadeSpec [⟨"link:agentA:agentB", none, 3, 1⟩] "agent") ∧
    (cascadeSpec [⟨"link:agentA:agentB", none, 3, 1⟩] "agent" = none ↔
      ∀ c ∈ [(⟨"link:agentA:agentB", none, 3, 1⟩ : ChannelInfo)],
        tierExact "agent" c = false ∧ tierStarts "agent" c = false ∧
        tierWithin "agent" c = false ∧ tierIdWithin "agent" c = false) :=
  find_channel_cascade cexStore5 [⟨"link:agentA:agentB", none, 3, 1⟩] "agent" (by decide)

/-- Claim C6: when the store fails, every write-path operation still
returns plain unit to its caller and leaves the store unchanged — the
failed attempt is dropped, with no retry and no propagated error. -/
theorem write_path_never_fails (db : ConversationStore) (err : String)
    (id : String) (now : Nat)
    (channel_id sender_name sender_id content transcript_json summary : String)
    (metadata : List (String × MetaValue)) (turns_covered : Nat)
    (hf : db.fail = some err) :
    log_user_message db id now channel_id sender_name sender_id content metadata
        = ((), db) ∧
    log_bot_message db id now channel_id content = ((), db) ∧
    save_compaction_summary db id now channel_id summary turns_covered = ((), db) ∧
    archive_transcript db id now channel_id transcript_json = ((), db) := by
  refine ⟨?_, ?_, ?_, ?_⟩ <;>
    simp [log_user_message, log_bot_message, save_compaction_summary,
      archive_transcript, hf]

/-- Claim C6, witness: the four write operations on a store whose next
statement fails, each returning unit with the store unchanged. -/
theorem write_path_never_fails_witness :
    log_user_message failStore "id" 0 "c" "alice" "s1" "hi" [] = ((), failStore) ∧
    log_bot_message failStore "id" 0 "c" "hello" = ((), failStore) ∧
    save_compaction_summary failStore "id" 0 "c" "sum" 4 = ((), failStore) ∧
    archive_transcript failStore "id" 0 "c" "[]" = ((), failStore) :=
  write_path_never_fails failStore "disk full" "id" 0 "c" "alice" "s1" "hi"
    "[]" "sum" [] 4 rfl

/-- Claim C7: parsing the serialization of every `LinkDirection` and
every `LinkRelationship` value yields the value back. -/
theorem parse_as_str_round_trip :
    (∀ d : LinkDirection, LinkDirection.from_str d.as_str = .ok d) ∧
    (∀ r : LinkRelationship, LinkRelationship.from_str r.as_str = .ok r) := by
  constructor
  · intro d; cases d <;> decide
  · intro r; cases r <;> decide

/-- Claim C8: `load_compaction_summaries` returns exactly the stored
summaries of the requested channel (a permutation of the channel filter
of the table), in ascending `created_at` order. -/
theorem load_compaction_summaries_sorted (db : ConversationStore) (ch : String)
    (ss : List CompactionSummary) (h : load_compaction_summaries db ch = .ok ss) :
    ss.Perm (db.summaries.filter fun s => s.channel_id == ch) ∧
    (∀ s ∈ ss, s.channel_id = ch) ∧
    List.Sorted (fun a b => a.created_at ≤ b.created_at) ss := by
  unfold load_compaction_summaries at h
  rcases hf : db.fail with _ | e
  · rw [hf] at h
    simp only [Except.ok.injEq] at h
    subst h
    refine ⟨List.perm_insertionSort _ _, ?_, List.sorted_insertionSort _ _⟩
    · intro s hs
      have hs2 := (List.perm_insertionSort
        (fun a b : CompactionSummary => a.created_at ≤ b.created_at) _).subset hs
      exact (Bool.of_decide_true (List.mem_filter.mp hs2).2 : _ = _)
  · rw [hf] at h
    exact absurd h (by simp)

/-- Claim C8, witness: the summary properties at a concrete store holding
two summaries of one channel, stored newest first. -/
theorem load_compaction_summaries_sorted_witness :
    ([⟨"s1", "c", "earlier", 2, 4⟩, ⟨"s2", "c", "later", 3, 7⟩] :
        List CompactionSummary).Perm
      (wStore8.summaries.filter fun s => s.channel_id == "c") ∧
    (∀ s ∈ ([⟨"s1", "c", "earlier", 2, 4⟩, ⟨"s2", "c", "later", 3, 7⟩] :
        List CompactionSummary), s.channel_id = "c") ∧
    List.Sorted (fun a b => a.created_at ≤ b.created_at)
      ([⟨"s1", "c", "earlier", 2, 4⟩, ⟨"s2", "c", "later", 3, 7⟩] :
        List CompactionSummary) :=
  load_compaction_summaries_sorted wStore8 "c"
    [⟨"s1", "c", "earlier", 2, 4⟩, ⟨"s2", "c", "later", 3, 7⟩] (by decide)

/-- Claim C9: `load_channel_transcript` agrees with `load_recent` on
every store state, channel identifier and limit — same rows, same order,
same error behaviour. -/
theorem load_channel_transcript_eq_load_recent
    (db : ConversationStore) (ch : String) (limit : Nat) :
    load_channel_transcript db ch limit = load_recent db ch limit := rfl

/-- Claim C10, counterexample: with the more recently active channel
named `general` and an older channel whose resolved display name is the
empty string, the empty query returns the older channel through the exact
tier, not the most recently active named channel. -/
theorem find_channel_empty_query_cex :
    list_channels cexStore10 = .ok
      [⟨"c1", some "general", 2, 1⟩, ⟨"c2", some "", 1, 1⟩] ∧
    find_channel_by_name cexStore10 "" = .ok (some "c2") ∧
    ("c2" : String) ≠ "c1" := ⟨by decide, by decide, by decide⟩

/-- Claim C10, amended: for the empty query, whenever some listed channel
has a resolved display name the result is not the not-found outcome; it
is the first listed (most recently active) channel whose display name is
the empty string if one exists, and otherwise the first listed channel
with a display name, via the prefix tier. -/
theorem find_channel_empty_query (db : ConversationStore)
    (channels : List ChannelInfo) (hch : list_channels db = .ok channels)
    (hname : ∃ c ∈ channels, (c.channel_name).isSome = true) :
    (∃ cid, find_channel_by_name db "" = .ok (some cid)) ∧
    find_channel_by_name db "" = .ok
      (((channels.find? (tierExact "")).map fun c => c.channel_id).orElse
        fun _ => (channels.find? fun c => (c.channel_name).isSome).map
          fun c => c.channel_id) := by
  have h0 : find_channel_by_name db "" = .ok (cascadeSpec channels "") := by
    unfold find_channel_by_name
    rw [hch]
    exact congrArg Except.ok (findInChannels_eq_cascade channels "")
  have hpred : tierStarts "" = fun c : ChannelInfo => (c.channel_name).isSome :=
    funext tierStarts_empty
  rcases h1 : channels.find? (tierExact "") with _ | c1
  · have hsome : (channels.find? fun c => (c.channel_name).isSome).isSome = true :=
      List.find?_isSome.mpr hname
    rcases hfind : channels.find? (fun c => (c.channel_name).isSome) with _ | c2
    · rw [hfind] at hsome
      exact absurd hsome (by decide)
    · have hc : cascadeSpec channels "" = some c2.channel_id := by
        unfold cascadeSpec
        rw [h1, hpred, hfind]
        simp [Option.orElse]
      refine ⟨⟨c2.channel_id, ?_⟩, ?_⟩
      · rw [h0, hc]
      · rw [h0, hc, hfind]
        simp [Option.orElse]
  · have hc : cascadeSpec channels "" = some c1.channel_id := by
      unfold cascadeSpec
      rw [h1]
      simp [Option.orElse]
    refine ⟨⟨c1.channel_id, ?_⟩, ?_⟩
    · rw [h0, hc]
    · rw [h0, hc]
      simp [Option.orElse]

/-- Claim C10, witness: the empty-query behaviour on the two-channel
example store, whose older channel is named by the empty string. -/
theorem find_channel_empty_query_witness :
    (∃ cid, find_channel_by_name cexStore10 "" = .ok (some cid)) ∧
    find_channel_by_name cexStore10 "" = .ok
      ((([⟨"c1", some "general", 2, 1⟩, ⟨"c2", some "", 1, 1⟩].find?
          (tierExact "")).map fun c => c.channel_id).orElse
        fun _ => ([(⟨"c1", some "general", 2, 1⟩ : ChannelInfo),
            ⟨"c2", some "", 1, 1⟩].find?
          fun c => (c.channel_name).isSome).map fun c => c.channel_id) :=
  find_channel_empty_query cexStore10
    [⟨"c1", some "general", 2, 1⟩, ⟨"c2", some "", 1, 1⟩] (by decide) (by decide)
